import Mathlib

/-!
# URL shortener: link and click services

A shallow embedding of `internal/services/link_service.go`,
`internal/services/click_service.go` and the repository interface of
`internal/repository/link_repository.go`.

Go functions that talk to a repository or to `crypto/rand` become functions
`σ → result × σ` over the state `σ` of the environment.  Go's multiple return
values are kept as tuples; a nil pointer or a nil error is `none`.  A function
that can panic has an `Outcome`.  Go's `int` and `uint` are `Int` and `Nat`:
the services do no arithmetic on them.
-/

namespace UrlShortener

/-! ## Errors -/

/-- Go error values: the sentinel `gorm.ErrRecordNotFound`, an error made by
`errors.New(msg)` (also any other leaf error of a collaborator), and an error
made by `fmt.Errorf(msg + ": %w", inner)`.  The errors of the collaborators
are taken to be of these forms too. -/
inductive GoError where
  | recordNotFound : GoError
  | new (msg : String) : GoError
  | wrap (msg : String) (inner : GoError) : GoError
  deriving DecidableEq

/-- The function `errors.Is(err, target)`: true when `err` or an error in its
`%w` chain is `target`. -/
def errorsIs : GoError → GoError → Bool
  | .wrap msg inner, target =>
      if GoError.wrap msg inner = target then true else errorsIs inner target
  | err, target => decide (err = target)

/-! ## Data model -/

/-- Modelled from the spec: `models.Link` (the `models` package is not among the
sources): a store-assigned `id`, the `short_code` and the `long_url`. -/
structure Link where
  ID : Nat
  ShortCode : String
  LongURL : String
  deriving DecidableEq

/-- Modelled from the spec: `models.Click` (the `models` package is not among
the sources): a store-assigned `id`, the `link_id` of the link it was recorded
against, and the caller's metadata, which the services pass through. -/
structure Click where
  ID : Nat
  LinkID : Nat
  Metadata : String
  deriving DecidableEq

/-! ## Collaborators -/

/-- What a call of a Go function that can panic does: it returns `value`, or
it panics. -/
inductive Outcome (α : Type) where
  | returns (value : α) : Outcome α
  | panics : Outcome α
  deriving DecidableEq

/-- The interface `repository.LinkRepository` over a store state `σ`.
`CreateLink` receives a pointer to the link; on success the store writes the id
it assigned through that pointer, which is what the `Nat` is.  A lookup yields
a link or an error, as `GormLinkRepository.GetLinkByShortCode` does. -/
structure LinkRepository (σ : Type) where
  CreateLink : Link → σ → Except GoError Nat × σ
  GetLinkByShortCode : String → σ → Except GoError Link × σ
  GetAllLinks : σ → Except GoError (List Link) × σ
  CountClicksByLinkID : Nat → σ → Except GoError Int × σ

/-- Modelled from the spec: the interface `repository.ClickRepository` (its
declaration is not among the sources), with the two methods `ClickService`
calls: `create(Click) -> error` and `countByLinkID(id) -> count | error`. -/
structure ClickRepository (σ : Type) where
  CreateClick : Click → σ → Option GoError × σ
  CountClicksByLinkID : Nat → σ → Except GoError Int × σ

/-- What `LinkService` runs against: the allocator behind `make([]byte, n)`,
which yields a slice for `n` up to `maxAlloc` and panics for a larger `n`
(`makeslice: len out of range`; `maxAlloc` is the constant of the Go runtime,
or less where memory is short); `rand.Int(rand.Reader, max)`, which yields a
value in `[0, max)` or an error; and the link repository. -/
structure Env (σ : Type) where
  maxAlloc : Nat
  randInt : (max : Nat) → σ → Except GoError (Fin max) × σ
  linkRepo : LinkRepository σ

/-! ## Link service -/

/-- The constant `charset`. -/
def charset : String :=
  "abcdefghijklmnopqrstuvwxyzABCDEFGHIJKLMNOPQRSTUVWXYZ0123456789"

/-- The byte `charset[i]`, for an index below `len(charset)`. -/
def charsetAt (i : Fin charset.length) : Char :=
  charset.data.get i

/-- The loop `for i := range shortCode` of `GenerateShortCode`: `n` bytes are
still to be filled, `acc` holds the bytes filled so far. -/
def fillShortCode {σ : Type} (env : Env σ) :
    Nat → List Char → σ → (String × Option GoError) × σ
  | 0, acc, s => ((String.mk acc, none), s)
  | n + 1, acc, s =>
      match env.randInt charset.length s with
      | (.error err, s1) =>
          (("", some (.wrap "error generating random index" err)), s1)
      | (.ok index, s1) => fillShortCode env n (acc ++ [charsetAt index]) s1

/-- The method `LinkService.GenerateShortCode`.  After the guard on `length`
the allocation `make([]byte, length)` panics when `length` is beyond what the
allocator yields; nothing has been drawn by then. -/
def GenerateShortCode {σ : Type} (env : Env σ) (length : Int) (s : σ) :
    Outcome ((String × Option GoError) × σ) :=
  if length ≤ 0 then
    .returns (("", some (.new "length must be greater than 0")), s)
  else if env.maxAlloc < length.toNat then
    .panics
  else
    .returns (fillShortCode env length.toNat [] s)

/-- The constant `maxRetries` of `CreateLink`. -/
def maxRetries : Nat := 5

/-- The retry loop of `CreateLink` with `n` iterations left.  `Except.error` is
a `return nil, err` from inside the loop; `Except.ok` is the value of the
variable `shortCode` when the loop is left (by `break`, or with `""` after the
last iteration).  A panic of `GenerateShortCode` is not recovered.  The
`log.Printf` on a collision has no effect on the result. -/
def createLinkLoop {σ : Type} (env : Env σ) :
    Nat → σ → Outcome (Except GoError String × σ)
  | 0, s => .returns (.ok "", s)
  | n + 1, s =>
      match GenerateShortCode env 6 s with
      | .panics => .panics
      | .returns ((_, some err), s1) =>
          .returns (.error (.wrap "error generating short code" err), s1)
      | .returns ((code, none), s1) =>
          match env.linkRepo.GetLinkByShortCode code s1 with
          | (.error err, s2) =>
              if errorsIs err .recordNotFound then .returns (.ok code, s2)
              else .returns
                (.error (.wrap "database error checking short code uniqueness" err), s2)
          | (.ok _, s2) => createLinkLoop env n s2

/-- The method `LinkService.CreateLink`. -/
def CreateLink {σ : Type} (env : Env σ) (longURL : String) (s : σ) :
    Outcome ((Option Link × Option GoError) × σ) :=
  match createLinkLoop env maxRetries s with
  | .panics => .panics
  | .returns (.error err, s1) => .returns ((none, some err), s1)
  | .returns (.ok shortCode, s1) =>
      if shortCode = "" then
        .returns ((none,
          some (.new "failed to generate a unique short code after multiple attempts")), s1)
      else
        let link : Link := { ID := 0, ShortCode := shortCode, LongURL := longURL }
        match env.linkRepo.CreateLink link s1 with
        | (.error err, s2) => .returns ((none, some (.wrap "error creating link" err)), s2)
        | (.ok id, s2) => .returns ((some { link with ID := id }, none), s2)

/-- The method `LinkService.GetLinkByShortCode`. -/
def GetLinkByShortCode {σ : Type} (env : Env σ) (shortCode : String) (s : σ) :
    (Option Link × Option GoError) × σ :=
  match env.linkRepo.GetLinkByShortCode shortCode s with
  | (.error err, s1) =>
      if errorsIs err .recordNotFound then
        ((none, some (.wrap ("link with short code \x27" ++ shortCode ++ "\x27 not found") err)), s1)
      else
        ((none, some (.wrap ("error retrieving link by short code \x27" ++ shortCode ++ "\x27") err)), s1)
  | (.ok link, s1) => ((some link, none), s1)

/-- The method `LinkService.GetLinkStats`. -/
def GetLinkStats {σ : Type} (env : Env σ) (shortCode : String) (s : σ) :
    (Option Link × Int × Option GoError) × σ :=
  match GetLinkByShortCode env shortCode s with
  | ((_, some err), s1) => ((none, 0, some err), s1)
  | ((none, none), s1) => ((none, 0, none), s1) -- not reached: a lookup without error has a link
  | ((some link, none), s1) =>
      match env.linkRepo.CountClicksByLinkID link.ID s1 with
      | (.error err, s2) =>
          if errorsIs err .recordNotFound then
            ((none, 0, some (.wrap
              ("no clicks found for link with short code \x27" ++ shortCode ++ "\x27") err)), s2)
          else
            ((none, 0, some (.wrap
              ("error counting clicks for link with short code \x27" ++ shortCode ++ "\x27") err)), s2)
      | (.ok totalClicks, s2) => ((some link, totalClicks, none), s2)

/-! ## Click service -/

/-- The method `ClickService.RecordClick`. -/
def RecordClick {σ : Type} (clickRepo : ClickRepository σ) (click : Click) (s : σ) :
    Option GoError × σ :=
  match clickRepo.CreateClick click s with
  | (some err, s1) => (some (.wrap "failed to record click" err), s1)
  | (none, s1) => (none, s1)

/-- The method `ClickService.GetClicksCountByLinkID`. -/
def GetClicksCountByLinkID {σ : Type} (clickRepo : ClickRepository σ) (linkID : Nat) (s : σ) :
    (Int × Option GoError) × σ :=
  match clickRepo.CountClicksByLinkID linkID s with
  | (.error err, s1) =>
      ((0, some (.wrap ("failed to count clicks for linkID " ++ toString linkID) err)), s1)
  | (.ok count, s1) => ((count, none), s1)

/-! ## Environments

Two environments the services are run against: a scripted one, which records
every call made to a collaborator, and an in-memory store. -/

/-- A call to a collaborator. -/
inductive Event where
  | randInt (max : Nat) : Event
  | getLinkByShortCode (shortCode : String) : Event
  | createLink (link : Link) : Event
  | getAllLinks : Event
  | countClicksByLinkID (linkID : Nat) : Event
  deriving DecidableEq

/-- The constant `maxAlloc` of the Go runtime on 64-bit platforms, `1 << 48`:
the largest size in bytes that `make` does not refuse. -/
def goMaxAlloc : Nat := 2 ^ 48

/-- The outcome of a `rand.Int(rand.Reader, max)` whose reader yields `out`: an
error, or the value read reduced into `[0, max)`. -/
def drawFrom (out : Except GoError Nat) (max : Nat) : Except GoError (Fin max) :=
  if h : 0 < max then
    match out with
    | .ok raw => .ok ⟨raw % max, Nat.mod_lt raw h⟩
    | .error err => .error err
  else .error (.new "crypto/rand: argument to Int is <= 0")

/-- A scripted environment: for each collaborator the outcomes of its next
calls (outcome `0` is the one of the next call), and the calls made so far,
oldest first.  The scripts range over all sequences of outcomes, so that a
statement about every scripted environment covers every behaviour of the
collaborators (`CreateLink_scripted`).  The allocator is the one of the Go
runtime. -/
structure World where
  randOut : Nat → Except GoError Nat
  lookupOut : Nat → Except GoError Link
  createOut : Nat → Except GoError Nat
  allOut : Nat → Except GoError (List Link)
  countOut : Nat → Except GoError Int
  trace : List Event

namespace World

/-- The scripted `rand.Int`. -/
def randInt (max : Nat) (w : World) : Except GoError (Fin max) × World :=
  (drawFrom (w.randOut 0) max,
    { w with randOut := fun n => w.randOut (n + 1), trace := w.trace ++ [.randInt max] })

/-- The scripted link repository. -/
def linkRepo : LinkRepository World where
  CreateLink := fun link w =>
    (w.createOut 0,
      { w with createOut := fun n => w.createOut (n + 1), trace := w.trace ++ [.createLink link] })
  GetLinkByShortCode := fun shortCode w =>
    (w.lookupOut 0,
      { w with lookupOut := fun n => w.lookupOut (n + 1),
               trace := w.trace ++ [.getLinkByShortCode shortCode] })
  GetAllLinks := fun w =>
    (w.allOut 0,
      { w with allOut := fun n => w.allOut (n + 1), trace := w.trace ++ [.getAllLinks] })
  CountClicksByLinkID := fun linkID w =>
    (w.countOut 0,
      { w with countOut := fun n => w.countOut (n + 1),
               trace := w.trace ++ [.countClicksByLinkID linkID] })

/-- The scripted environment of `LinkService`, under the Go runtime. -/
def env : Env World where
  maxAlloc := goMaxAlloc
  randInt := randInt
  linkRepo := linkRepo

end World

/-- An in-memory store: the links and the clicks it holds, oldest first, and
the outcomes of the next reads of the random source.  A lookup reports
record-not-found exactly when no stored link has the code; create adds the
record under a fresh id; count is the number of stored clicks of the link. -/
structure Store where
  randOut : Nat → Except GoError Nat
  links : List Link
  clicks : List Click

namespace Store

/-- The random source next to the store. -/
def randInt (max : Nat) (st : Store) : Except GoError (Fin max) × Store :=
  (drawFrom (st.randOut 0) max, { st with randOut := fun n => st.randOut (n + 1) })

/-- The link repository of the store. -/
def linkRepo : LinkRepository Store where
  CreateLink := fun link st =>
    (.ok (st.links.length + 1),
      { st with links := st.links ++ [{ link with ID := st.links.length + 1 }] })
  GetLinkByShortCode := fun shortCode st =>
    match st.links.find? (fun l => l.ShortCode = shortCode) with
    | some link => (.ok link, st)
    | none => (.error .recordNotFound, st)
  GetAllLinks := fun st => (.ok st.links, st)
  CountClicksByLinkID := fun linkID st =>
    (.ok (st.clicks.countP (fun c => c.LinkID = linkID)), st)

/-- The click repository of the store. -/
def clickRepo : ClickRepository Store where
  CreateClick := fun click st =>
    (none, { st with clicks := st.clicks ++ [{ click with ID := st.clicks.length + 1 }] })
  CountClicksByLinkID := fun linkID st =>
    (.ok (st.clicks.countP (fun c => c.LinkID = linkID)), st)

/-- The store as the environment of `LinkService`, under the Go runtime. -/
def env : Env Store where
  maxAlloc := goMaxAlloc
  randInt := randInt
  linkRepo := linkRepo

end Store

/-! ## Vocabulary of the statements -/

/-- The random source does not fail on the next `n` draws of an index into
`charset`, starting in state `s`. -/
def randOk {σ : Type} (env : Env σ) : Nat → σ → Bool
  | 0, _ => true
  | n + 1, s =>
      match env.randInt charset.length s with
      | (.ok _, s1) => randOk env n s1
      | (.error _, _) => false

/-- The letters `a`-`z`, `A`-`Z` and the digits `0`-`9`, in this order. -/
def alphanumerics : List Char :=
  (List.range 26).map (fun i => Char.ofNat (97 + i)) ++
  (List.range 26).map (fun i => Char.ofNat (65 + i)) ++
  (List.range 10).map (fun i => Char.ofNat (48 + i))

/-- The character `charset[raw mod 62]` written for the value `raw` read from the
random source. -/
def drawChar (raw : Nat) : Char :=
  charsetAt ⟨raw % charset.length, Nat.mod_lt raw (by decide)⟩

/-- The code of the attempt number `i` (from 0) of `CreateLink` when the random
source yields the values `r 0`, `r 1`, ...: the characters of the draws
`6 * i` to `6 * i + 5`. -/
def nthCode (r : Nat → Nat) (i : Nat) : String :=
  String.mk ((List.range 6).map (fun j => drawChar (r (6 * i + j))))

/-- The calls of one iteration of the retry loop that reaches its lookup: six
draws, then the lookup of the generated code. -/
def attemptEvents (code : String) : List Event :=
  List.replicate 6 (.randInt charset.length) ++ [.getLinkByShortCode code]

/-- The calls of the first `k` iterations of the retry loop. -/
def attemptsTrace (r : Nat → Nat) : Nat → List Event
  | 0 => []
  | k + 1 => attemptsTrace r k ++ attemptEvents (nthCode r k)

/-- The scripted environment after `n` draws of an index into `charset`. -/
def World.afterDraws (w : World) (n : Nat) : World :=
  { w with randOut := fun m => w.randOut (m + n),
           trace := w.trace ++ List.replicate n (.randInt charset.length) }

/-- The scripted environment after `k` iterations of the retry loop that each
reached their lookup. -/
def World.afterAttempts (w : World) (r : Nat → Nat) (k : Nat) : World :=
  { w with randOut := fun m => w.randOut (m + 6 * k),
           lookupOut := fun m => w.lookupOut (m + k),
           trace := w.trace ++ attemptsTrace r k }

/-- The value read at position `j` of the random source of `w` (0 where the
source fails). -/
def rawAt (w : World) (j : Nat) : Nat :=
  match w.randOut j with
  | .ok v => v
  | .error _ => 0

/-- The number of lookups in a trace. -/
def lookupCount (t : List Event) : Nat :=
  t.countP (fun ev => match ev with
    | .getLinkByShortCode _ => true
    | _ => false)

/-- The number of draws from the random source in a trace. -/
def drawCount (t : List Event) : Nat :=
  t.countP (fun ev => match ev with
    | .randInt _ => true
    | _ => false)

/-- The links the repository was asked to create in a trace, oldest first. -/
def createCalls (t : List Event) : List Link :=
  t.filterMap (fun ev => match ev with
    | .createLink link => some link
    | _ => none)

/-- The stream `f` starts with the outcomes `l`. -/
def StartsWith {α : Type} (f : Nat → α) (l : List α) : Prop :=
  ∀ i (h : i < l.length), f i = l.get ⟨i, h⟩

/-- The scripted environment after `a` draws, `b` lookups and `c` creates that
recorded the calls `evs`. -/
def World.advance (w : World) (a b c : Nat) (evs : List Event) : World :=
  { w with randOut := fun m => w.randOut (m + a),
           lookupOut := fun m => w.lookupOut (m + b),
           createOut := fun m => w.createOut (m + c),
           trace := w.trace ++ evs }

/-! ## Sample environments -/

/-- A link that is already stored. -/
def takenLink : Link :=
  { ID := 7, ShortCode := "ahovCJ", LongURL := "https://taken.example" }

/-- A scripted environment with nothing recorded yet: the random source yields
0, 7, 14, ...; the lookups have the outcomes `lookups`, in this order, and
report record-not-found after them; a create has the outcome `create`; a count
is 0. -/
def scripted (lookups : List (Except GoError Link)) (create : Except GoError Nat) : World where
  randOut := fun n => .ok (7 * n)
  lookupOut := fun i => lookups.getD i (.error .recordNotFound)
  createOut := fun _ => create
  allOut := fun _ => .ok []
  countOut := fun _ => .ok 0
  trace := []

/-- A store with two links, the first under the first code that its random
source generates, and two clicks, both of the first link. -/
def sampleStore : Store where
  randOut := fun n => .ok (7 * n)
  links := [takenLink, { ID := 8, ShortCode := "ABC123", LongURL := "https://example.com" }]
  clicks := [{ ID := 1, LinkID := 7, Metadata := "a" }, { ID := 2, LinkID := 7, Metadata := "b" }]

/-! ## Code generation -/

theorem charsetAt_mem (i : Fin charset.length) : charsetAt i ∈ charset.data :=
  List.get_mem _ _ _

/-- The two ways the filling loop ends: with the wrapped error of the random
source and an empty string, or with `n` more bytes of the charset and no
error. -/
theorem fillShortCode_cases {σ : Type} (env : Env σ) (n : Nat) (acc : List Char) (s : σ) :
    (∃ err, (fillShortCode env n acc s).1 =
        ("", some (.wrap "error generating random index" err))) ∨
    (∃ cs : List Char, (fillShortCode env n acc s).1 = (String.mk (acc ++ cs), none) ∧
        cs.length = n ∧ ∀ c ∈ cs, c ∈ charset.data) := by
  induction n generalizing acc s with
  | zero => exact Or.inr ⟨[], by simp [fillShortCode]⟩
  | succ n ih =>
    rw [fillShortCode]
    rcases h : env.randInt charset.length s with ⟨r, s1⟩
    cases r with
    | error err => exact Or.inl ⟨err, rfl⟩
    | ok index =>
      rcases ih (acc ++ [charsetAt index]) s1 with ⟨err, he⟩ | ⟨cs, hcs, hlen, hmem⟩
      · exact Or.inl ⟨err, he⟩
      · refine Or.inr ⟨charsetAt index :: cs, ?_, by simp [hlen], ?_⟩
        · simpa using hcs
        · intro c hc
          rcases List.mem_cons.mp hc with rfl | hc
          · exact charsetAt_mem index
          · exact hmem c hc

/-- When the random source does not fail, the filling loop reports no error. -/
theorem fillShortCode_randOk {σ : Type} (env : Env σ) (n : Nat) (acc : List Char) (s : σ)
    (h : randOk env n s = true) : (fillShortCode env n acc s).1.2 = none := by
  induction n generalizing acc s with
  | zero => rfl
  | succ n ih =>
    rw [fillShortCode]
    rw [randOk] at h
    rcases hr : env.randInt charset.length s with ⟨r, s1⟩
    rw [hr] at h
    cases r with
    | error err => simp at h
    | ok index => exact ih _ _ h

/-- A code generated without error has exactly `length` characters, all of the
charset, and `length` was positive and within what the allocator yields. -/
theorem GenerateShortCode_result {σ : Type} (env : Env σ) (length : Int) (s : σ)
    (code : String) (s1 : σ)
    (h : GenerateShortCode env length s = .returns ((code, none), s1)) :
    0 < length ∧ (code.length : Int) = length ∧ (∀ c ∈ code.data, c ∈ charset.data) ∧
    length.toNat ≤ env.maxAlloc := by
  unfold GenerateShortCode at h
  split at h
  · simp at h
  · next hlen =>
    split at h
    · simp at h
    · next halloc =>
      have hpos : 0 < length := by omega
      simp only [Outcome.returns.injEq] at h
      rcases fillShortCode_cases env length.toNat [] s with ⟨err, he⟩ | ⟨cs, hcs, hl, hmem⟩
      · rw [h] at he; simp at he
      · rw [h] at hcs
        simp only [List.nil_append, Prod.mk.injEq, and_true] at hcs
        subst hcs
        refine ⟨hpos, ?_, hmem, by omega⟩
        show ((cs.length : Nat) : Int) = length
        rw [hl]; exact Int.toNat_of_nonneg hpos.le

/-- In the scripted environment a random source whose script holds no error
does not fail, however many draws are made. -/
theorem randOk_world (n : Nat) (w : World) (h : ∀ i, ∃ v, w.randOut i = .ok v) :
    randOk World.env n w = true := by
  induction n generalizing w with
  | zero => rfl
  | succ n ih =>
    rw [randOk]
    have h0 : World.env.randInt charset.length w =
        (drawFrom (w.randOut 0) charset.length,
          { w with randOut := fun m => w.randOut (m + 1),
                   trace := w.trace ++ [.randInt charset.length] }) := rfl
    obtain ⟨v, hv⟩ := h 0
    rw [h0, hv]
    have hd : drawFrom (.ok v) charset.length =
        .ok ⟨v % charset.length, Nat.mod_lt v (by decide)⟩ := by
      unfold drawFrom
      rw [dif_pos (by decide)]
    rw [hd]
    exact ih _ (fun i => h (i + 1))

/-- C1, amended: for every `length > 0` that is within what the
allocator behind `make([]byte, length)` yields, and every random source that
does not fail on the next `length` draws, `GenerateShortCode(length)` returns
no error and a string of exactly `length` characters, each a character of
`charset`; and `charset` is 62 pairwise distinct characters, the letters
`a`-`z`, `A`-`Z` and the digits `0`-`9`, so that every index in `[0, 62)` is a
position of it. -/
theorem GenerateShortCode_ok {σ : Type} (env : Env σ) (length : Int) (s : σ)
    (hlen : 0 < length) (halloc : length.toNat ≤ env.maxAlloc)
    (hrand : randOk env length.toNat s = true) :
    ∃ code s1, GenerateShortCode env length s = .returns ((code, none), s1) ∧
      (code.length : Int) = length ∧
      (∀ c ∈ code.data, c ∈ charset.data) ∧
      charset.length = 62 ∧ charset.data.Nodup ∧ charset.data = alphanumerics := by
  have hnone := fillShortCode_randOk env length.toNat [] s hrand
  have hgen : GenerateShortCode env length s =
      .returns (((fillShortCode env length.toNat [] s).1.1, none),
        (fillShortCode env length.toNat [] s).2) := by
    unfold GenerateShortCode
    rw [if_neg (by omega), if_neg (by omega)]
    rcases hf : fillShortCode env length.toNat [] s with ⟨⟨code, e⟩, s1⟩
    rw [hf] at hnone
    simp only at hnone
    subst hnone
    rfl
  have hres := GenerateShortCode_result env length s _ _ hgen
  exact ⟨_, _, hgen, hres.2.1, hres.2.2.1, by decide, by decide, by decide⟩

theorem GenerateShortCode_ok_witness :
    (0 : Int) < 6 ∧ (6 : Int).toNat ≤ World.env.maxAlloc ∧
    randOk World.env 6 (scripted [] (.ok 1)) = true ∧
    ∃ w1, GenerateShortCode World.env 6 (scripted [] (.ok 1)) =
        .returns (("ahovCJ", none), w1) ∧ (("ahovCJ".length : Nat) : Int) = 6 := by
  obtain ⟨code, w1, hrun, hlen, _⟩ :=
    GenerateShortCode_ok World.env 6 (scripted [] (.ok 1)) (by decide) (by decide) (by decide)
  have heval : ∃ w2, GenerateShortCode World.env 6 (scripted [] (.ok 1)) =
      .returns (("ahovCJ", none), w2) := ⟨_, rfl⟩
  obtain ⟨w2, he⟩ := heval
  rw [he] at hrun
  simp only [Outcome.returns.injEq, Prod.mk.injEq, and_true] at hrun
  obtain ⟨rfl, _⟩ := hrun
  exact ⟨by decide, by decide, by decide, w2, he, hlen⟩

/-- C1, as stated, fails at `length = 2^63 - 1`, the largest `int`: in the
scripted environment, with a random source that never fails, the call passes
the guard and panics in `make([]byte, length)`; it returns neither a string nor
an error. -/
theorem GenerateShortCode_maxInt_panics :
    (0 : Int) < 2 ^ 63 - 1 ∧
    randOk World.env ((2 ^ 63 - 1 : Int).toNat) (scripted [] (.ok 1)) = true ∧
    GenerateShortCode World.env (2 ^ 63 - 1) (scripted [] (.ok 1)) = .panics ∧
    ¬ ∃ code w1, GenerateShortCode World.env (2 ^ 63 - 1) (scripted [] (.ok 1)) =
      .returns ((code, none), w1) := by
  have hp : GenerateShortCode World.env (2 ^ 63 - 1) (scripted [] (.ok 1)) = .panics := by
    unfold GenerateShortCode
    rw [if_neg (by norm_num), if_pos]
    show goMaxAlloc < ((2 ^ 63 - 1 : Int)).toNat
    unfold goMaxAlloc
    omega
  refine ⟨by norm_num, randOk_world _ _ (fun i => ⟨_, rfl⟩), hp, ?_⟩
  rintro ⟨code, w1, h⟩
  rw [hp] at h
  exact Outcome.noConfusion h

/-- C2: for every `length <= 0`, `GenerateShortCode(length)` returns the empty
string and the error `length must be greater than 0` and leaves the environment
as it was (nothing is drawn, in the scripted environment no call is recorded);
for `length > 0` that error is never returned. -/
theorem GenerateShortCode_invalid {σ : Type} (env : Env σ) (length : Int) (s : σ) :
    (length ≤ 0 →
      GenerateShortCode env length s =
        .returns (("", some (.new "length must be greater than 0")), s)) ∧
    (0 < length → ∀ code s1,
      GenerateShortCode env length s ≠
        .returns ((code, some (.new "length must be greater than 0")), s1)) := by
  constructor
  · intro h
    unfold GenerateShortCode
    rw [if_pos h]
  · intro h code s1
    unfold GenerateShortCode
    rw [if_neg (by omega)]
    split
    · simp
    · rcases fillShortCode_cases env length.toNat [] s with ⟨err, he⟩ | ⟨cs, hcs, _, _⟩
      · intro hc
        simp only [Outcome.returns.injEq] at hc
        rw [hc] at he
        simp at he
      · intro hc
        simp only [Outcome.returns.injEq] at hc
        rw [hc] at hcs
        simp at hcs

theorem GenerateShortCode_invalid_witness :
    GenerateShortCode World.env 0 (scripted [] (.ok 1)) =
      .returns (("", some (.new "length must be greater than 0")), scripted [] (.ok 1)) ∧
    GenerateShortCode World.env (-1) (scripted [] (.ok 1)) =
      .returns (("", some (.new "length must be greater than 0")), scripted [] (.ok 1)) ∧
    ∀ code w1, GenerateShortCode World.env 6 (scripted [] (.ok 1)) ≠
      .returns ((code, some (.new "length must be greater than 0")), w1) :=
  ⟨(GenerateShortCode_invalid World.env 0 (scripted [] (.ok 1))).1 (by decide),
    (GenerateShortCode_invalid World.env (-1) (scripted [] (.ok 1))).1 (by decide),
    (GenerateShortCode_invalid World.env 6 (scripted [] (.ok 1))).2 (by decide)⟩

/-! ## Link creation in the scripted environment -/

theorem drawFrom_ok (raw : Nat) :
    drawFrom (.ok raw) charset.length = .ok ⟨raw % charset.length, Nat.mod_lt raw (by decide)⟩ := by
  unfold drawFrom
  rw [dif_pos (by decide)]

theorem drawFrom_error (err : GoError) :
    drawFrom (.error err) charset.length = .error err := by
  unfold drawFrom
  rw [dif_pos (by decide)]

theorem fillShortCode_world (n : Nat) (acc : List Char) (w : World) (r : Nat → Nat)
    (h : ∀ j < n, w.randOut j = .ok (r j)) :
    fillShortCode World.env n acc w =
      ((String.mk (acc ++ (List.range n).map (fun j => drawChar (r j))), none),
        w.afterDraws n) := by
  induction n generalizing acc w r with
  | zero => simp [fillShortCode, World.afterDraws]
  | succ n ih =>
    rw [fillShortCode]
    have h0 : World.env.randInt charset.length w =
        (.ok ⟨r 0 % charset.length, Nat.mod_lt (r 0) (by decide)⟩,
          { w with randOut := fun m => w.randOut (m + 1),
                   trace := w.trace ++ [.randInt charset.length] }) := by
      show World.randInt charset.length w = _
      unfold World.randInt
      rw [h 0 (Nat.succ_pos n), drawFrom_ok]
    rw [h0]
    simp only
    rw [ih _ _ (fun j => r (j + 1)) (fun j hj => h (j + 1) (Nat.succ_lt_succ hj))]
    have hl : acc ++ [charsetAt ⟨r 0 % charset.length, Nat.mod_lt (r 0) (by decide)⟩] ++
        (List.range n).map (fun j => drawChar (r (j + 1))) =
        acc ++ (List.range (n + 1)).map (fun j => drawChar (r j)) := by
      rw [List.range_succ_eq_map, List.map_cons, List.map_map, List.append_assoc]
      rfl
    rw [hl]
    simp [World.afterDraws, List.replicate_succ, List.append_assoc]
    rfl

theorem GenerateShortCode_world (w : World) (r : Nat → Nat)
    (h : ∀ j < 6, w.randOut j = .ok (r j)) :
    GenerateShortCode World.env 6 w =
      .returns
        ((String.mk ((List.range 6).map (fun j => drawChar (r j))), none), w.afterDraws 6) := by
  unfold GenerateShortCode
  rw [if_neg (by decide), if_neg (by decide)]
  exact congrArg Outcome.returns (fillShortCode_world 6 [] w r h)

/-- One iteration of the retry loop in the scripted environment, after `k`
earlier iterations: six draws and one lookup. -/
theorem attempt_world (w : World) (r : Nat → Nat) (k : Nat)
    (h : ∀ j < 6 * (k + 1), w.randOut j = .ok (r j)) :
    GenerateShortCode World.env 6 (w.afterAttempts r k) =
        .returns ((nthCode r k, none), (w.afterAttempts r k).afterDraws 6) ∧
    World.env.linkRepo.GetLinkByShortCode (nthCode r k) ((w.afterAttempts r k).afterDraws 6) =
        (w.lookupOut k, w.afterAttempts r (k + 1)) := by
  constructor
  · rw [GenerateShortCode_world (w.afterAttempts r k) (fun j => r (6 * k + j))]
    · rfl
    · intro j hj
      show w.randOut (j + 6 * k) = _
      rw [h (j + 6 * k) (by omega), Nat.add_comm]
  · show World.linkRepo.GetLinkByShortCode _ _ = _
    simp only [World.linkRepo, World.afterDraws, World.afterAttempts, attemptsTrace,
      attemptEvents, Nat.zero_add, List.append_assoc, Prod.mk.injEq, true_and, World.mk.injEq,
      and_true]
    constructor
    · funext m
      congr 1
      omega
    · funext m
      congr 1
      omega

theorem afterAttempts_zero (w : World) (r : Nat → Nat) : w.afterAttempts r 0 = w := by
  cases w
  simp [World.afterAttempts, attemptsTrace]

/-- One iteration of the retry loop in the scripted environment, by the outcome
of its lookup. -/
theorem createLinkLoop_step (w : World) (r : Nat → Nat) (k n : Nat)
    (h : ∀ j < 6 * (k + 1), w.randOut j = .ok (r j)) :
    createLinkLoop World.env (n + 1) (w.afterAttempts r k) =
      match w.lookupOut k with
      | .error err =>
          if errorsIs err .recordNotFound then
            .returns (.ok (nthCode r k), w.afterAttempts r (k + 1))
          else
            .returns (.error (.wrap "database error checking short code uniqueness" err),
              w.afterAttempts r (k + 1))
      | .ok _ => createLinkLoop World.env n (w.afterAttempts r (k + 1)) := by
  rw [createLinkLoop, (attempt_world w r k h).1]
  simp only
  rw [(attempt_world w r k h).2]
  cases w.lookupOut k <;> rfl

/-- The retry loop after `k` collisions in a row. -/
theorem createLinkLoop_collisions (w : World) (r : Nat → Nat) (k : Nat)
    (hrand : ∀ j < 6 * k, w.randOut j = .ok (r j))
    (hcoll : ∀ i < k, ∃ l, w.lookupOut i = .ok l) (n : Nat) :
    createLinkLoop World.env (k + n) w = createLinkLoop World.env n (w.afterAttempts r k) := by
  induction k generalizing n with
  | zero => rw [afterAttempts_zero, Nat.zero_add]
  | succ k ih =>
    have e : k + 1 + n = k + (n + 1) := by omega
    rw [e, ih (fun j hj => hrand j (by omega)) (fun i hi => hcoll i (by omega)) (n + 1),
      createLinkLoop_step w r k n hrand]
    obtain ⟨l, hl⟩ := hcoll k (Nat.lt_succ_self k)
    rw [hl]

theorem nthCode_length (r : Nat → Nat) (i : Nat) : (nthCode r i).length = 6 := by
  simp [nthCode, String.length]

theorem nthCode_ne_empty (r : Nat → Nat) (i : Nat) : nthCode r i ≠ "" := by
  intro h
  have := nthCode_length r i
  rw [h] at this
  exact absurd this (by decide)

theorem nthCode_mem (r : Nat → Nat) (i : Nat) : ∀ c ∈ (nthCode r i).data, c ∈ charset.data := by
  intro c hc
  simp only [nthCode, List.mem_map] at hc
  obtain ⟨j, _, rfl⟩ := hc
  exact charsetAt_mem _

theorem lookupCount_attemptsTrace (r : Nat → Nat) (k : Nat) :
    lookupCount (attemptsTrace r k) = k := by
  induction k with
  | zero => rfl
  | succ k ih =>
    unfold lookupCount at ih ⊢
    simp [attemptsTrace, attemptEvents, List.countP_append, ih, List.countP_replicate]

theorem drawCount_attemptsTrace (r : Nat → Nat) (k : Nat) :
    drawCount (attemptsTrace r k) = 6 * k := by
  induction k with
  | zero => rfl
  | succ k ih =>
    unfold drawCount at ih ⊢
    simp [attemptsTrace, attemptEvents, List.countP_append, ih, List.countP_replicate]
    omega

theorem createCalls_attemptsTrace (r : Nat → Nat) (k : Nat) :
    createCalls (attemptsTrace r k) = [] := by
  induction k with
  | zero => rfl
  | succ k ih =>
    unfold createCalls at ih ⊢
    simp [attemptsTrace, attemptEvents, List.filterMap_append, ih, List.filterMap_replicate]

theorem lookupCount_afterAttempts (w : World) (r : Nat → Nat) (k : Nat) :
    lookupCount (w.afterAttempts r k).trace = lookupCount w.trace + k := by
  have := lookupCount_attemptsTrace r k
  unfold lookupCount at this ⊢
  simp only [World.afterAttempts, List.countP_append, this]

theorem drawCount_afterAttempts (w : World) (r : Nat → Nat) (k : Nat) :
    drawCount (w.afterAttempts r k).trace = drawCount w.trace + 6 * k := by
  have := drawCount_attemptsTrace r k
  unfold drawCount at this ⊢
  simp only [World.afterAttempts, List.countP_append, this]

theorem createCalls_afterAttempts (w : World) (r : Nat → Nat) (k : Nat) :
    createCalls (w.afterAttempts r k).trace = createCalls w.trace := by
  have := createCalls_attemptsTrace r k
  unfold createCalls at this ⊢
  simp only [World.afterAttempts, List.filterMap_append, this, List.append_nil]

theorem env_CreateLink (link : Link) (w : World) :
    World.env.linkRepo.CreateLink link w =
      (w.createOut 0,
        { w with createOut := fun n => w.createOut (n + 1),
                 trace := w.trace ++ [.createLink link] }) := rfl

/-- The retry loop of `CreateLink` when the `(j+1)`-th lookup is the first one
that does not find a link. -/
theorem createLinkLoop_world (w : World) (r : Nat → Nat) (j : Nat) (hj : j < maxRetries)
    (hrand : ∀ i < 6 * (j + 1), w.randOut i = .ok (r i))
    (hcoll : ∀ i < j, ∃ l, w.lookupOut i = .ok l) :
    createLinkLoop World.env maxRetries w =
      match w.lookupOut j with
      | .error err =>
          if errorsIs err .recordNotFound then
            .returns (.ok (nthCode r j), w.afterAttempts r (j + 1))
          else
            .returns (.error (.wrap "database error checking short code uniqueness" err),
              w.afterAttempts r (j + 1))
      | .ok _ => createLinkLoop World.env (maxRetries - (j + 1)) (w.afterAttempts r (j + 1)) := by
  have e : maxRetries = j + ((maxRetries - (j + 1)) + 1) := by omega
  conv_lhs => rw [e]
  rw [createLinkLoop_collisions w r j (fun i hi => hrand i (by omega)) hcoll,
    createLinkLoop_step w r j _ hrand]

/-- In the scripted environment a filling loop that reports no error has read
`n` values from the random source. -/
theorem fillShortCode_world_inv (n : Nat) (acc : List Char) (w : World)
    (h : (fillShortCode World.env n acc w).1.2 = none) :
    ∀ j < n, ∃ v, w.randOut j = .ok v := by
  induction n generalizing acc w with
  | zero => intro j hj; omega
  | succ n ih =>
    rw [fillShortCode] at h
    have h0 : World.env.randInt charset.length w =
        (drawFrom (w.randOut 0) charset.length,
          { w with randOut := fun m => w.randOut (m + 1),
                   trace := w.trace ++ [.randInt charset.length] }) := rfl
    rw [h0] at h
    cases hr : w.randOut 0 with
    | error err =>
      rw [hr, drawFrom_error] at h
      simp at h
    | ok v =>
      rw [hr, drawFrom_ok] at h
      simp only at h
      intro j hj
      cases j with
      | zero => exact ⟨v, hr⟩
      | succ j => exact ih _ _ h j (by omega)

theorem rawAt_spec (w : World) (j : Nat) (h : ∃ v, w.randOut j = .ok v) :
    w.randOut j = .ok (rawAt w j) := by
  obtain ⟨v, hv⟩ := h
  simp [rawAt, hv]

/-- In the scripted environment the retry loop is left with the empty code
only after `n` collisions. -/
theorem createLinkLoop_world_inv (n : Nat) (w s1 : World)
    (h : createLinkLoop World.env n w = .returns (.ok "", s1)) :
    (∀ j < 6 * n, ∃ v, w.randOut j = .ok v) ∧ (∀ i < n, ∃ l, w.lookupOut i = .ok l) := by
  induction n generalizing w with
  | zero => exact ⟨fun j hj => by omega, fun i hi => by omega⟩
  | succ n ih =>
    have hgen : (fillShortCode World.env 6 [] w).1.2 = none := by
      rw [createLinkLoop] at h
      have hg : GenerateShortCode World.env 6 w =
          .returns (fillShortCode World.env 6 [] w) := by
        unfold GenerateShortCode
        rw [if_neg (by decide), if_neg (by decide)]
        rfl
      rw [hg] at h
      rcases hf : fillShortCode World.env 6 [] w with ⟨⟨code, oe⟩, w1⟩
      rw [hf] at h
      cases oe with
      | none => rfl
      | some err => simp at h
    have h6 : ∀ j < 6, ∃ v, w.randOut j = .ok v := fillShortCode_world_inv _ _ _ hgen
    have h6r : ∀ j < 6 * (0 + 1), w.randOut j = .ok (rawAt w j) :=
      fun j hj => rawAt_spec w j (h6 j (by omega))
    have step := createLinkLoop_step w (rawAt w) 0 n h6r
    rw [afterAttempts_zero] at step
    rw [step] at h
    cases hl : w.lookupOut 0 with
    | error err =>
      rw [hl] at h
      simp only at h
      split at h
      · simp only [Outcome.returns.injEq, Prod.mk.injEq, Except.ok.injEq] at h
        exact absurd h.1 (nthCode_ne_empty _ _)
      · simp at h
    | ok l =>
      rw [hl] at h
      simp only at h
      obtain ⟨ihr, ihl⟩ := ih _ h
      constructor
      · intro j hj
        by_cases hj6 : j < 6
        · exact h6 j hj6
        · have := ihr (j - 6) (by omega)
          simp only [World.afterAttempts] at this
          rwa [show j - 6 + 6 * (0 + 1) = j by omega] at this
      · intro i hi
        cases i with
        | zero => exact ⟨l, hl⟩
        | succ i =>
          have := ihl i (by omega)
          simpa only [World.afterAttempts] using this

/-- Every error returned from inside the retry loop is a wrapped one. -/
theorem createLinkLoop_error {σ : Type} (env : Env σ) (n : Nat) (s s1 : σ) (err : GoError)
    (h : createLinkLoop env n s = .returns (.error err, s1)) :
    ∃ msg inner, err = .wrap msg inner := by
  induction n generalizing s with
  | zero => simp [createLinkLoop] at h
  | succ n ih =>
    rw [createLinkLoop] at h
    split at h
    · simp at h
    · simp only [Outcome.returns.injEq, Prod.mk.injEq, Except.error.injEq] at h
      exact ⟨_, _, h.1.symm⟩
    · split at h
      · split at h
        · simp at h
        · simp only [Outcome.returns.injEq, Prod.mk.injEq, Except.error.injEq] at h
          exact ⟨_, _, h.1.symm⟩
      · exact ih _ h

/-- The method `CreateLink` returns the exhausted-retries error only when the
retry loop was left with the empty code, and then with no link. -/
theorem exhausted_error_inv {σ : Type} (env : Env σ) (longURL : String) (s s1 : σ)
    (res : Option Link)
    (h : CreateLink env longURL s = .returns ((res,
      some (.new "failed to generate a unique short code after multiple attempts")), s1)) :
    createLinkLoop env maxRetries s = .returns (.ok "", s1) ∧ res = none := by
  unfold CreateLink at h
  rcases hl : createLinkLoop env maxRetries s with ⟨lres, s2⟩ | _
  · rw [hl] at h
    cases lres with
    | error err =>
      obtain ⟨msg, inner, rfl⟩ := createLinkLoop_error env _ _ _ _ hl
      simp at h
    | ok code =>
      simp only at h
      by_cases hc : code = ""
      · subst hc
        simp only [if_true, Outcome.returns.injEq, Prod.mk.injEq, and_true] at h
        exact ⟨by rw [h.2], h.1.symm⟩
      · rw [if_neg hc] at h
        exfalso
        revert h
        split <;> simp
  · rw [hl] at h
    simp at h

/-- C3: in the scripted environment, for every `longURL` and every `k` in
`1..5`: if the random source does not fail on the `6 * k` draws of the first
`k` codes, the first `k - 1` lookups report an existing link, the `k`-th
reports record-not-found and the repository create succeeds, assigning `id`,
then `CreateLink(longURL)` returns no error and a link whose short code is the
`k`-th generated code (6 characters of the charset) and whose long URL is the
input, after exactly `k` lookups and exactly one repository create, called
with that link (before the store assigned its id). -/
theorem CreateLink_accepts (w : World) (longURL : String) (k : Nat) (r : Nat → Nat)
    (err : GoError) (id : Nat) (hk1 : 1 ≤ k) (hk5 : k ≤ 5)
    (hrand : ∀ i < 6 * k, w.randOut i = .ok (r i))
    (hcoll : ∀ i < k - 1, ∃ l, w.lookupOut i = .ok l)
    (hnf : w.lookupOut (k - 1) = .error err) (hrnf : errorsIs err .recordNotFound = true)
    (hcreate : w.createOut 0 = .ok id) :
    ∃ w1, CreateLink World.env longURL w =
      .returns ((some { ID := id, ShortCode := nthCode r (k - 1), LongURL := longURL }, none),
        w1) ∧
    (nthCode r (k - 1)).length = 6 ∧
    (∀ c ∈ (nthCode r (k - 1)).data, c ∈ charset.data) ∧
    w1.trace =
      w.trace ++ attemptsTrace r k ++
        [.createLink { ID := 0, ShortCode := nthCode r (k - 1), LongURL := longURL }] ∧
    lookupCount w1.trace = lookupCount w.trace + k ∧
    createCalls w1.trace =
      createCalls w.trace ++ [{ ID := 0, ShortCode := nthCode r (k - 1), LongURL := longURL }] := by
  obtain ⟨j, rfl⟩ : ∃ j, k = j + 1 := ⟨k - 1, by omega⟩
  simp only [Nat.add_sub_cancel] at hcoll hnf ⊢
  have hloop := createLinkLoop_world w r j (by unfold maxRetries; omega) hrand hcoll
  rw [hnf] at hloop
  simp only [hrnf, if_true] at hloop
  have hc : CreateLink World.env longURL w =
      .returns ((some { ID := id, ShortCode := nthCode r j, LongURL := longURL }, none),
        { w.afterAttempts r (j + 1) with
          createOut := fun n => w.createOut (n + 1),
          trace := w.trace ++ attemptsTrace r (j + 1) ++
            [.createLink { ID := 0, ShortCode := nthCode r j, LongURL := longURL }] }) := by
    unfold CreateLink
    rw [hloop]
    simp only [nthCode_ne_empty, if_false]
    simp only [env_CreateLink, World.afterAttempts, hcreate]
  refine ⟨_, hc, nthCode_length r j, nthCode_mem r j, rfl, ?_, ?_⟩
  · simp only [lookupCount, List.countP_append]
    have := lookupCount_attemptsTrace r (j + 1)
    unfold lookupCount at this
    rw [this]
    simp
  · simp only [createCalls, List.filterMap_append]
    have := createCalls_attemptsTrace r (j + 1)
    unfold createCalls at this
    rw [this]
    simp

theorem CreateLink_accepts_witness :
    (∃ w1, CreateLink World.env "https://example.com" (scripted [] (.ok 1)) =
        .returns
          ((some { ID := 1, ShortCode := "ahovCJ", LongURL := "https://example.com" }, none),
            w1) ∧
      lookupCount w1.trace = 1) ∧
    (∃ w1, CreateLink World.env "https://example.com"
          (scripted [.ok takenLink, .ok takenLink] (.ok 9)) =
        .returns
          ((some { ID := 9, ShortCode := "wDKRY5", LongURL := "https://example.com" }, none),
            w1) ∧
      lookupCount w1.trace = 3) := by
  obtain ⟨w1, h1⟩ := CreateLink_accepts (scripted [] (.ok 1)) "https://example.com" 1
    (fun n => 7 * n) .recordNotFound 1 (by decide) (by decide) (fun _ _ => rfl)
    (fun i hi => absurd hi (by omega)) rfl (by decide) rfl
  obtain ⟨w3, h3⟩ := CreateLink_accepts (scripted [.ok takenLink, .ok takenLink] (.ok 9))
    "https://example.com" 3 (fun n => 7 * n) .recordNotFound 9 (by decide) (by decide)
    (fun _ _ => rfl)
    (by
      intro i hi
      have : i = 0 ∨ i = 1 := by omega
      rcases this with rfl | rfl <;> exact ⟨takenLink, rfl⟩)
    rfl (by decide) rfl
  have e1 : nthCode (fun n => 7 * n) (1 - 1) = "ahovCJ" := by decide
  have e3 : nthCode (fun n => 7 * n) (3 - 1) = "wDKRY5" := by decide
  rw [e1] at h1
  rw [e3] at h3
  exact ⟨⟨w1, h1.1, h1.2.2.2.2.1⟩, ⟨w3, h3.1, h3.2.2.2.2.1⟩⟩

/-- C4: in the scripted environment, for every `longURL`: if the random
source does not fail on the 30 draws of the first 5 codes and each of the first
5 lookups reports an existing link, `CreateLink` returns no link and the error
`failed to generate a unique short code after multiple attempts`, after exactly
5 lookups and 30 draws (5 attempts, no sixth) and without a call of the
repository create; and `CreateLink` returns that error only when the first 5
codes were generated and each of the first 5 lookups reported an existing
link. -/
theorem CreateLink_exhausted (w : World) (longURL : String) (r : Nat → Nat) :
    ((∀ j < 30, w.randOut j = .ok (r j)) → (∀ i < 5, ∃ l, w.lookupOut i = .ok l) →
      CreateLink World.env longURL w =
        .returns ((none,
          some (.new "failed to generate a unique short code after multiple attempts")),
          w.afterAttempts r 5) ∧
      (w.afterAttempts r 5).trace = w.trace ++ attemptsTrace r 5 ∧
      lookupCount (w.afterAttempts r 5).trace = lookupCount w.trace + 5 ∧
      drawCount (w.afterAttempts r 5).trace = drawCount w.trace + 30 ∧
      createCalls (w.afterAttempts r 5).trace = createCalls w.trace) ∧
    (∀ res w1, CreateLink World.env longURL w =
        .returns ((res,
          some (.new "failed to generate a unique short code after multiple attempts")), w1) →
      res = none ∧
      (∀ j < 30, ∃ v, w.randOut j = .ok v) ∧ (∀ i < 5, ∃ l, w.lookupOut i = .ok l)) := by
  constructor
  · intro hrand hcoll
    have hloop : createLinkLoop World.env maxRetries w =
        .returns (.ok "", w.afterAttempts r 5) := by
      have := createLinkLoop_collisions w r 5 hrand hcoll 0
      exact this.trans rfl
    have hc : CreateLink World.env longURL w =
        .returns ((none,
          some (.new "failed to generate a unique short code after multiple attempts")),
          w.afterAttempts r 5) := by
      unfold CreateLink
      rw [hloop]
      simp
    exact ⟨hc, rfl, lookupCount_afterAttempts w r 5, drawCount_afterAttempts w r 5,
      createCalls_afterAttempts w r 5⟩
  · intro res w1 h
    have hinv := exhausted_error_inv World.env longURL w w1 res h
    exact ⟨hinv.2, createLinkLoop_world_inv maxRetries w _ hinv.1⟩

theorem CreateLink_exhausted_witness :
    (∃ w1, CreateLink World.env "https://example.com"
          (scripted (List.replicate 5 (.ok takenLink)) (.ok 1)) =
        .returns ((none,
          some (.new "failed to generate a unique short code after multiple attempts")), w1) ∧
      lookupCount w1.trace = 5 ∧ createCalls w1.trace = []) ∧
    ∀ i < 5, ∃ l, (scripted (List.replicate 5 (.ok takenLink)) (.ok 1)).lookupOut i = .ok l := by
  have hcoll : ∀ i < 5,
      ∃ l, (scripted (List.replicate 5 (.ok takenLink)) (.ok 1)).lookupOut i = .ok l := by
    intro i hi
    have : i = 0 ∨ i = 1 ∨ i = 2 ∨ i = 3 ∨ i = 4 := by omega
    rcases this with rfl | rfl | rfl | rfl | rfl <;> exact ⟨takenLink, rfl⟩
  have h := CreateLink_exhausted (scripted (List.replicate 5 (.ok takenLink)) (.ok 1))
    "https://example.com" (fun n => 7 * n)
  have hf := h.1 (fun _ _ => rfl) hcoll
  exact ⟨⟨_, hf.1, hf.2.2.1, hf.2.2.2.2⟩, (h.2 _ _ hf.1).2.2⟩

/-! ## Generality of the scripted environment -/

theorem StartsWith.nil {α : Type} (f : Nat → α) : StartsWith f [] :=
  fun i h => absurd h (Nat.not_lt_zero i)

theorem StartsWith.cons {α : Type} {f : Nat → α} {a : α} {l : List α}
    (h : StartsWith f (a :: l)) : f 0 = a ∧ StartsWith (fun m => f (m + 1)) l :=
  ⟨h 0 (by simp), fun i hi => h (i + 1) (by simpa using hi)⟩

theorem StartsWith.append {α : Type} {f : Nat → α} {l1 l2 : List α}
    (h : StartsWith f (l1 ++ l2)) :
    StartsWith f l1 ∧ StartsWith (fun m => f (m + l1.length)) l2 := by
  constructor
  · intro i hi
    have := h i (by rw [List.length_append]; omega)
    rw [this]
    simp [List.getElem_append_left, hi]
  · intro i hi
    have := h (i + l1.length) (by rw [List.length_append]; omega)
    show f (i + l1.length) = _
    rw [this]
    simp [List.getElem_append_right]

theorem StartsWith.getD {α : Type} (l : List α) (d : α) :
    StartsWith (fun i => l.getD i d) l := by
  intro i hi
  simp [List.getD, hi]

theorem advance_advance (w : World) (a b c a1 b1 c1 : Nat) (e e1 : List Event) :
    (w.advance a b c e).advance a1 b1 c1 e1 = w.advance (a + a1) (b + b1) (c + c1) (e ++ e1) := by
  simp only [World.advance, List.append_assoc, World.mk.injEq, and_true]
  refine ⟨?_, ?_, ?_⟩ <;> funext m <;> congr 1 <;> omega

/-- The filling loop against any environment is matched by the filling loop
against every scripted environment whose random source starts with the
outcomes the loop meets. -/
theorem fillShortCode_scripted {σ : Type} (env : Env σ) (n : Nat) (acc : List Char) (s : σ) :
    ∃ (routs : List (Except GoError Nat)) (evs : List Event), ∀ w : World,
      StartsWith w.randOut routs →
      fillShortCode World.env n acc w =
        ((fillShortCode env n acc s).1, w.advance routs.length 0 0 evs) := by
  induction n generalizing acc s with
  | zero =>
    refine ⟨[], [], fun w _ => ?_⟩
    cases w
    simp [fillShortCode, World.advance]
  | succ n ih =>
    rcases hr : env.randInt charset.length s with ⟨r, s1⟩
    have h0 : ∀ w : World, World.env.randInt charset.length w =
        (drawFrom (w.randOut 0) charset.length,
          w.advance 1 0 0 [.randInt charset.length]) := fun w => rfl
    cases r with
    | error err =>
      refine ⟨[.error err], [.randInt charset.length], fun w hw => ?_⟩
      rw [fillShortCode, fillShortCode, hr, h0, hw.cons.1, drawFrom_error]
      rfl
    | ok index =>
      obtain ⟨routs, evs, ih⟩ := ih (acc ++ [charsetAt index]) s1
      refine ⟨.ok index.val :: routs, .randInt charset.length :: evs, fun w hw => ?_⟩
      have hidx : drawFrom (.ok index.val) charset.length = .ok index := by
        rw [drawFrom_ok]
        congr 1
        exact Fin.ext (Nat.mod_eq_of_lt index.isLt)
      rw [fillShortCode, fillShortCode, hr, h0, hw.cons.1, hidx]
      simp only
      rw [ih (w.advance 1 0 0 [.randInt charset.length]) hw.cons.2, advance_advance]
      simp [Nat.add_comm]


theorem advance_zero (w : World) : w.advance 0 0 0 [] = w := by
  cases w
  simp [World.advance]

/-- The generation of a 6-character code against any environment that
allocates 6 bytes is matched in the scripted environment. -/
theorem GenerateShortCode_scripted {σ : Type} (env : Env σ) (s : σ)
    (halloc : 6 ≤ env.maxAlloc) :
    ∃ (routs : List (Except GoError Nat)) (evs : List Event) (res : String × Option GoError)
      (s1 : σ), GenerateShortCode env 6 s = .returns (res, s1) ∧ ∀ w : World,
      StartsWith w.randOut routs →
      GenerateShortCode World.env 6 w = .returns (res, w.advance routs.length 0 0 evs) := by
  obtain ⟨routs, evs, hf⟩ := fillShortCode_scripted env 6 [] s
  refine ⟨routs, evs, (fillShortCode env 6 [] s).1, (fillShortCode env 6 [] s).2, ?_, ?_⟩
  · unfold GenerateShortCode
    rw [if_neg (by decide), if_neg (by simpa using halloc)]
    rfl
  · intro w hw
    unfold GenerateShortCode
    rw [if_neg (by decide), if_neg (by decide)]
    exact congrArg Outcome.returns (hf w hw)

/-- The retry loop against any environment that allocates 6 bytes is matched
by the retry loop against every scripted environment that starts with the
outcomes the loop meets. -/
theorem createLinkLoop_scripted {σ : Type} (env : Env σ) (n : Nat) (s : σ)
    (halloc : 6 ≤ env.maxAlloc) :
    ∃ (routs : List (Except GoError Nat)) (louts : List (Except GoError Link))
      (evs : List Event) (res : Except GoError String) (s1 : σ),
      createLinkLoop env n s = .returns (res, s1) ∧ ∀ w : World,
      StartsWith w.randOut routs → StartsWith w.lookupOut louts →
      createLinkLoop World.env n w =
        .returns (res, w.advance routs.length louts.length 0 evs) := by
  induction n generalizing s with
  | zero =>
    refine ⟨[], [], [], .ok "", s, rfl, fun w _ _ => ?_⟩
    rw [createLinkLoop]
    exact congrArg (fun v => Outcome.returns (Except.ok "", v)) (advance_zero w).symm
  | succ n ih =>
    obtain ⟨r1, e1, ⟨code, oe⟩, s1, hgen, hg⟩ := GenerateShortCode_scripted env s halloc
    cases oe with
    | some err =>
      refine ⟨r1, [], e1, .error (.wrap "error generating short code" err), s1, ?_,
        fun w hw _ => ?_⟩
      · rw [createLinkLoop, hgen]
      · rw [createLinkLoop, hg w hw]
        rfl
    | none =>
      have hl : ∀ v : World, World.env.linkRepo.GetLinkByShortCode code v =
          (v.lookupOut 0, v.advance 0 1 0 [.getLinkByShortCode code]) := fun v => rfl
      rcases hlook : env.linkRepo.GetLinkByShortCode code s1 with ⟨res, s2⟩
      cases res with
      | error err =>
        refine ⟨r1, [.error err], e1 ++ [.getLinkByShortCode code],
          if errorsIs err .recordNotFound then .ok code
          else .error (.wrap "database error checking short code uniqueness" err), s2, ?_,
          fun w hw hwl => ?_⟩
        · rw [createLinkLoop, hgen]
          simp only
          rw [hlook]
          simp only
          split <;> rfl
        · rw [createLinkLoop, hg w hw]
          simp only
          rw [hl, advance_advance]
          have : (w.advance r1.length 0 0 e1).lookupOut 0 = .error err := hwl.cons.1
          rw [this]
          simp only
          split <;> rfl
      | ok link =>
        obtain ⟨r2, l2, e2, res, s3, hrun, ih⟩ := ih s2
        refine ⟨r1 ++ r2, .ok link :: l2, e1 ++ .getLinkByShortCode code :: e2, res, s3, ?_,
          fun w hw hwl => ?_⟩
        · rw [createLinkLoop, hgen]
          simp only
          rw [hlook]
          exact hrun
        · rw [createLinkLoop, hg w hw.append.1]
          simp only
          rw [hl, advance_advance]
          have : (w.advance r1.length 0 0 e1).lookupOut 0 = .ok link := hwl.cons.1
          rw [this]
          simp only
          rw [ih _ (by simpa [World.advance] using hw.append.2)
            (by simpa [World.advance] using hwl.cons.2), advance_advance]
          simp [Nat.add_comm]

/-- Every run of `CreateLink` is a run in the scripted environment: for every
environment that allocates 6 bytes, and every state of it, `CreateLink`
returns, and there is a scripted environment, with nothing recorded yet, in
which it returns the same link and error. -/
theorem CreateLink_scripted {σ : Type} (env : Env σ) (longURL : String) (s : σ)
    (halloc : 6 ≤ env.maxAlloc) :
    ∃ (w : World) (res : Option Link × Option GoError) (s1 : σ), w.trace = [] ∧
      CreateLink env longURL s = .returns (res, s1) ∧
      ∃ w1, CreateLink World.env longURL w = .returns (res, w1) := by
  obtain ⟨routs, louts, evs, res, s1, hres, hloop⟩ :=
    createLinkLoop_scripted env maxRetries s halloc
  have key : ∀ cout : Except GoError Nat, ∃ w : World, w.trace = [] ∧ w.createOut 0 = cout ∧
      createLinkLoop World.env maxRetries w =
        .returns (res, w.advance routs.length louts.length 0 evs) := by
    intro cout
    refine ⟨⟨fun i => routs.getD i (.ok 0), fun i => louts.getD i (.error .recordNotFound),
      fun _ => cout, fun _ => .ok [], fun _ => .ok 0, []⟩, rfl, rfl, ?_⟩
    exact hloop _ (StartsWith.getD _ _) (StartsWith.getD _ _)
  cases res with
  | error err =>
    obtain ⟨w, ht, _, hw⟩ := key (.ok 0)
    refine ⟨w, (none, some err), s1, ht, ?_, ?_⟩
    · unfold CreateLink
      rw [hres]
    · unfold CreateLink
      rw [hw]
      exact ⟨_, rfl⟩
  | ok code =>
    rcases hc : env.linkRepo.CreateLink
      { ID := 0, ShortCode := code, LongURL := longURL } s1 with ⟨cres, s2⟩
    obtain ⟨w, ht, hcw, hw⟩ := key cres
    have hcw2 : (w.advance routs.length louts.length 0 evs).createOut 0 = cres := hcw
    by_cases hcode : code = ""
    · refine ⟨w, (none, some (.new
        "failed to generate a unique short code after multiple attempts")), s1, ht, ?_, ?_⟩
      · unfold CreateLink
        rw [hres]
        simp only [hcode, if_true]
      · unfold CreateLink
        rw [hw]
        simp only [hcode, if_true]
        exact ⟨_, rfl⟩
    · cases cres with
      | error cerr =>
        refine ⟨w, (none, some (.wrap "error creating link" cerr)), s2, ht, ?_, ?_⟩
        · unfold CreateLink
          rw [hres]
          simp only [hcode, if_false, hc]
        · unfold CreateLink
          rw [hw]
          simp only [hcode, if_false, env_CreateLink, hcw2]
          exact ⟨_, rfl⟩
      | ok id =>
        refine ⟨w, (some { ID := id, ShortCode := code, LongURL := longURL }, none), s2, ht,
          ?_, ?_⟩
        · unfold CreateLink
          rw [hres]
          simp only [hcode, if_false, hc]
        · unfold CreateLink
          rw [hw]
          simp only [hcode, if_false, env_CreateLink, hcw2]
          exact ⟨_, rfl⟩

/-! ## Link creation over the in-memory store -/

theorem fillShortCode_store (n : Nat) (acc : List Char) (st : Store) :
    (fillShortCode Store.env n acc st).2.links = st.links := by
  induction n generalizing acc st with
  | zero => rfl
  | succ n ih =>
    rw [fillShortCode]
    have h0 : Store.env.randInt charset.length st =
        (drawFrom (st.randOut 0) charset.length,
          { st with randOut := fun n => st.randOut (n + 1) }) := rfl
    rw [h0]
    cases drawFrom (st.randOut 0) charset.length with
    | error err => rfl
    | ok index => exact ih _ _

/-- Over the store a code generation returns and leaves the links as they
are. -/
theorem GenerateShortCode_store (st : Store) :
    ∃ res st1, GenerateShortCode Store.env 6 st = .returns (res, st1) ∧
      st1.links = st.links := by
  refine ⟨(fillShortCode Store.env 6 [] st).1, (fillShortCode Store.env 6 [] st).2, ?_,
    fillShortCode_store _ _ _⟩
  unfold GenerateShortCode
  rw [if_neg (by decide), if_neg (by decide)]
  rfl

/-- Over the store the retry loop returns, leaves the links as they are, and a
code it accepts is the code of no stored link. -/
theorem createLinkLoop_store (n : Nat) (st : Store) :
    ∃ res st1, createLinkLoop Store.env n st = .returns (res, st1) ∧
      st1.links = st.links ∧
      ∀ code, res = .ok code → code = "" ∨ ∀ l ∈ st.links, l.ShortCode ≠ code := by
  induction n generalizing st with
  | zero =>
    exact ⟨.ok "", st, rfl, rfl, fun code h => Or.inl (by simpa using h.symm)⟩
  | succ n ih =>
    rw [createLinkLoop]
    obtain ⟨⟨code, oe⟩, s1, hgen, hg⟩ := GenerateShortCode_store st
    rw [hgen]
    cases oe with
    | some err => exact ⟨_, _, rfl, hg, fun c h => by simp at h⟩
    | none =>
      simp only
      have hl : Store.env.linkRepo.GetLinkByShortCode code s1 =
          match s1.links.find? (fun l => l.ShortCode = code) with
          | some link => (.ok link, s1)
          | none => (.error .recordNotFound, s1) := rfl
      rw [hl]
      cases hf : s1.links.find? (fun l => l.ShortCode = code) with
      | some link =>
        simp only
        obtain ⟨res, st1, hrun, h1, h2⟩ := ih s1
        rw [hg] at h1 h2
        exact ⟨res, st1, hrun, h1, h2⟩
      | none =>
        have hrnf : errorsIs .recordNotFound .recordNotFound = true := by decide
        simp only [hrnf, if_true]
        refine ⟨_, _, rfl, hg, fun c h => Or.inr ?_⟩
        simp only [Except.ok.injEq] at h
        subst h
        rw [List.find?_eq_none] at hf
        intro l hmem
        have := hf l (hg ▸ hmem)
        simpa using this

/-- C5: short-code uniqueness is an invariant of link creation over the
in-memory store: if the stored links have pairwise distinct short codes before
`CreateLink(longURL)`, they still have after it, for every `longURL` and every
behaviour of the random source, whether the call returns a link (which is then
the one link added to the store) or fails (the stored links are then
unchanged). -/
theorem CreateLink_unique (st : Store) (longURL : String)
    (h : (st.links.map (fun l => l.ShortCode)).Nodup) :
    ∃ res st1, CreateLink Store.env longURL st = .returns (res, st1) ∧
      (st1.links.map (fun l => l.ShortCode)).Nodup ∧
      (∀ link, res.1 = some link → st1.links = st.links ++ [link]) ∧
      (res.1 = none → st1.links = st.links) := by
  unfold CreateLink
  obtain ⟨lres, s1, hloop, h1, h2⟩ := createLinkLoop_store maxRetries st
  rw [hloop]
  cases lres with
  | error err => exact ⟨_, _, rfl, by simp [h1, h], by simp, fun _ => h1⟩
  | ok code =>
    simp only
    by_cases hc : code = ""
    · rw [if_pos hc]
      exact ⟨_, _, rfl, by simp [h1, h], by simp, fun _ => h1⟩
    · rw [if_neg hc]
      have hfresh : ∀ l ∈ st.links, l.ShortCode ≠ code := by
        rcases h2 code rfl with h0 | h0
        · exact absurd h0 hc
        · exact h0
      have hcr : Store.env.linkRepo.CreateLink
          { ID := 0, ShortCode := code, LongURL := longURL } s1 =
          (.ok (s1.links.length + 1),
            { s1 with links := s1.links ++
              [{ ID := s1.links.length + 1, ShortCode := code, LongURL := longURL }] }) := rfl
      simp only [hcr, h1]
      refine ⟨_, _, rfl, ?_, ?_, ?_⟩
      · rw [List.map_append, List.nodup_append]
        refine ⟨h, by simp, ?_⟩
        intro a ha hb
        simp only [List.map_cons, List.map_nil, List.mem_singleton] at hb
        subst hb
        obtain ⟨l, hl, rfl⟩ := List.mem_map.mp ha
        exact hfresh l hl rfl
      · intro link hlink
        simp only [Option.some.injEq] at hlink
        rw [← hlink]
      · intro hn
        simp at hn

theorem CreateLink_unique_witness :
    (sampleStore.links.map (fun l => l.ShortCode)).Nodup ∧
    ∃ st1, CreateLink Store.env "https://example.com" sampleStore =
        .returns
          ((some { ID := 3, ShortCode := "QX4bip", LongURL := "https://example.com" }, none),
            st1) ∧
      (st1.links.map (fun l => l.ShortCode)).Nodup := by
  obtain ⟨res, st1, hrun, hnodup, _, _⟩ :=
    CreateLink_unique sampleStore "https://example.com" (by decide)
  have heval : ∃ st2, CreateLink Store.env "https://example.com" sampleStore =
      .returns
        ((some { ID := 3, ShortCode := "QX4bip", LongURL := "https://example.com" }, none),
          st2) := ⟨_, rfl⟩
  obtain ⟨st2, he⟩ := heval
  rw [he] at hrun
  simp only [Outcome.returns.injEq, Prod.mk.injEq] at hrun
  obtain ⟨_, rfl⟩ := hrun
  exact ⟨by decide, st2, he, hnodup⟩

/-! ## Failures of the repository during link creation -/

/-- C6: in the scripted environment, for every `longURL` and every `k` in
`1..5`: if the first `k` codes are generated, the first `k - 1` lookups report
an existing link and the `k`-th lookup fails with an error `err` for which
`errors.Is(err, gorm.ErrRecordNotFound)` is false, then `CreateLink` returns no
link and the error `database error checking short code uniqueness: err`, after
exactly `k` lookups and `6 * k` draws and without a call of the repository
create; the error is not the exhausted-retries error. -/
theorem CreateLink_storage_error (w : World) (longURL : String) (k : Nat) (r : Nat → Nat)
    (err : GoError) (hk1 : 1 ≤ k) (hk5 : k ≤ 5)
    (hrand : ∀ i < 6 * k, w.randOut i = .ok (r i))
    (hcoll : ∀ i < k - 1, ∃ l, w.lookupOut i = .ok l)
    (hfail : w.lookupOut (k - 1) = .error err) (hother : errorsIs err .recordNotFound = false) :
    CreateLink World.env longURL w =
      .returns ((none, some (.wrap "database error checking short code uniqueness" err)),
        w.afterAttempts r k) ∧
    (w.afterAttempts r k).trace = w.trace ++ attemptsTrace r k ∧
    lookupCount (w.afterAttempts r k).trace = lookupCount w.trace + k ∧
    drawCount (w.afterAttempts r k).trace = drawCount w.trace + 6 * k ∧
    createCalls (w.afterAttempts r k).trace = createCalls w.trace ∧
    ∀ res w1, CreateLink World.env longURL w ≠
      .returns ((res,
        some (.new "failed to generate a unique short code after multiple attempts")), w1) := by
  obtain ⟨j, rfl⟩ : ∃ j, k = j + 1 := ⟨k - 1, by omega⟩
  simp only [Nat.add_sub_cancel] at hcoll hfail
  have hloop := createLinkLoop_world w r j (by unfold maxRetries; omega) hrand hcoll
  rw [hfail] at hloop
  simp only [hother] at hloop
  have hc : CreateLink World.env longURL w =
      .returns ((none, some (.wrap "database error checking short code uniqueness" err)),
        w.afterAttempts r (j + 1)) := by
    unfold CreateLink
    rw [hloop]
    simp
  refine ⟨hc, rfl, lookupCount_afterAttempts w r _, drawCount_afterAttempts w r _,
    createCalls_afterAttempts w r _, ?_⟩
  intro res w1 h
  rw [hc] at h
  simp at h

theorem CreateLink_storage_error_witness :
    ∃ w1, CreateLink World.env "https://example.com"
        (scripted [.ok takenLink, .error (.new "database is locked")] (.ok 1)) =
      .returns ((none, some (.wrap "database error checking short code uniqueness"
        (.new "database is locked"))), w1) ∧
    lookupCount w1.trace = 2 ∧ createCalls w1.trace = [] := by
  have h := CreateLink_storage_error
    (scripted [.ok takenLink, .error (.new "database is locked")] (.ok 1))
    "https://example.com" 2 (fun n => 7 * n) (.new "database is locked") (by decide) (by decide)
    (fun _ _ => rfl)
    (by
      intro i hi
      have : i = 0 := by omega
      subst this
      exact ⟨takenLink, rfl⟩)
    rfl (by decide)
  exact ⟨_, h.1, h.2.2.1, h.2.2.2.2.1⟩

/-- C7: in the scripted environment, for every `longURL` and every `k` in
`1..5`: if the `k`-th generated code is accepted (the first `k - 1` lookups
report an existing link, the `k`-th record-not-found) and the repository create
then fails with an error `cerr`, `CreateLink` returns no link and the error
`error creating link: cerr`; the repository create was called exactly once,
as the last call of all, so that nothing is generated or looked up after the
failure: `k` lookups and `6 * k` draws in all. -/
theorem CreateLink_create_error (w : World) (longURL : String) (k : Nat) (r : Nat → Nat)
    (err cerr : GoError) (hk1 : 1 ≤ k) (hk5 : k ≤ 5)
    (hrand : ∀ i < 6 * k, w.randOut i = .ok (r i))
    (hcoll : ∀ i < k - 1, ∃ l, w.lookupOut i = .ok l)
    (hnf : w.lookupOut (k - 1) = .error err) (hrnf : errorsIs err .recordNotFound = true)
    (hcreate : w.createOut 0 = .error cerr) :
    ∃ w1, CreateLink World.env longURL w =
      .returns ((none, some (.wrap "error creating link" cerr)), w1) ∧
    w1.trace =
      w.trace ++ attemptsTrace r k ++
        [.createLink { ID := 0, ShortCode := nthCode r (k - 1), LongURL := longURL }] ∧
    lookupCount w1.trace = lookupCount w.trace + k ∧
    drawCount w1.trace = drawCount w.trace + 6 * k ∧
    createCalls w1.trace =
      createCalls w.trace ++ [{ ID := 0, ShortCode := nthCode r (k - 1), LongURL := longURL }] := by
  obtain ⟨j, rfl⟩ : ∃ j, k = j + 1 := ⟨k - 1, by omega⟩
  simp only [Nat.add_sub_cancel] at hcoll hnf ⊢
  have hloop := createLinkLoop_world w r j (by unfold maxRetries; omega) hrand hcoll
  rw [hnf] at hloop
  simp only [hrnf, if_true] at hloop
  have hc : CreateLink World.env longURL w =
      .returns ((none, some (.wrap "error creating link" cerr)),
        { w.afterAttempts r (j + 1) with
          createOut := fun n => w.createOut (n + 1),
          trace := w.trace ++ attemptsTrace r (j + 1) ++
            [.createLink { ID := 0, ShortCode := nthCode r j, LongURL := longURL }] }) := by
    unfold CreateLink
    rw [hloop]
    simp only [nthCode_ne_empty, if_false]
    simp only [env_CreateLink, World.afterAttempts, hcreate]
  refine ⟨_, hc, rfl, ?_, ?_, ?_⟩
  · simp only [lookupCount, List.countP_append]
    have := lookupCount_attemptsTrace r (j + 1)
    unfold lookupCount at this
    rw [this]
    simp
  · simp only [drawCount, List.countP_append]
    have := drawCount_attemptsTrace r (j + 1)
    unfold drawCount at this
    rw [this]
    simp
  · simp only [createCalls, List.filterMap_append]
    have := createCalls_attemptsTrace r (j + 1)
    unfold createCalls at this
    rw [this]
    simp

theorem CreateLink_create_error_witness :
    ∃ w1, CreateLink World.env "https://example.com"
        (scripted [] (.error (.new "UNIQUE constraint failed: links.short_code"))) =
      .returns ((none, some (.wrap "error creating link"
        (.new "UNIQUE constraint failed: links.short_code"))), w1) ∧
    w1.trace =
      List.replicate 6 (.randInt 62) ++ [.getLinkByShortCode "ahovCJ",
        .createLink { ID := 0, ShortCode := "ahovCJ", LongURL := "https://example.com" }] := by
  obtain ⟨w1, h⟩ := CreateLink_create_error
    (scripted [] (.error (.new "UNIQUE constraint failed: links.short_code")))
    "https://example.com" 1 (fun n => 7 * n) .recordNotFound
    (.new "UNIQUE constraint failed: links.short_code") (by decide) (by decide)
    (fun _ _ => rfl) (fun i hi => absurd hi (by omega)) rfl (by decide) rfl
  exact ⟨w1, h.1, h.2.1.trans (by decide)⟩

/-! ## Statistics -/

theorem errorsIs_wrap (msg : String) (err : GoError) :
    errorsIs (.wrap msg err) .recordNotFound = errorsIs err .recordNotFound := by
  rw [errorsIs]
  simp

/-- The service lookup returns a link and no error, or no link and an error:
the branch of `GetLinkStats` for neither is not reached. -/
theorem GetLinkByShortCode_link_or_error {σ : Type} (env : Env σ) (shortCode : String)
    (s : σ) :
    (∃ link, (GetLinkByShortCode env shortCode s).1 = (some link, none)) ∨
    (∃ err, (GetLinkByShortCode env shortCode s).1 = (none, some err)) := by
  unfold GetLinkByShortCode
  rcases env.linkRepo.GetLinkByShortCode shortCode s with ⟨res, s1⟩
  cases res with
  | error err =>
    simp only
    split
    · exact Or.inr ⟨_, rfl⟩
    · exact Or.inr ⟨_, rfl⟩
  | ok link => exact Or.inl ⟨link, rfl⟩

/-- The service lookup when the repository lookup fails. -/
theorem GetLinkByShortCode_error {σ : Type} (env : Env σ) (shortCode : String) (s s1 : σ)
    (err : GoError) (hlookup : env.linkRepo.GetLinkByShortCode shortCode s = (.error err, s1)) :
    GetLinkByShortCode env shortCode s =
      ((none, some (.wrap
        (if errorsIs err .recordNotFound
          then "link with short code \x27" ++ shortCode ++ "\x27 not found"
          else "error retrieving link by short code \x27" ++ shortCode ++ "\x27") err)), s1) := by
  unfold GetLinkByShortCode
  rw [hlookup]
  simp only
  split <;> rfl

/-- The statistics when the repository lookup fails. -/
theorem GetLinkStats_error {σ : Type} (env : Env σ) (shortCode : String) (s s1 : σ)
    (err : GoError) (hlookup : env.linkRepo.GetLinkByShortCode shortCode s = (.error err, s1)) :
    GetLinkStats env shortCode s = ((none, 0, (GetLinkByShortCode env shortCode s).1.2), s1) := by
  unfold GetLinkStats
  rw [GetLinkByShortCode_error env shortCode s s1 err hlookup]

/-- C8: for every short code whose lookup returns a link, if the click-count
accessor returns a count `n` without error, `GetLinkStats(code)` returns that
link, the count `n` and no error; and over the in-memory store, for a stored
link without any recorded click, it returns the link, the count 0 and no
error. -/
theorem GetLinkStats_ok {σ : Type} (env : Env σ) (shortCode : String) (s s1 s2 : σ)
    (link : Link) (n : Int)
    (hlookup : env.linkRepo.GetLinkByShortCode shortCode s = (.ok link, s1))
    (hcount : env.linkRepo.CountClicksByLinkID link.ID s1 = (.ok n, s2)) :
    GetLinkStats env shortCode s = ((some link, n, none), s2) ∧
    ∀ (st : Store) (stored : Link),
      st.links.find? (fun l => l.ShortCode = shortCode) = some stored →
      (∀ c ∈ st.clicks, c.LinkID ≠ stored.ID) →
      GetLinkStats Store.env shortCode st = ((some stored, 0, none), st) := by
  constructor
  · unfold GetLinkStats GetLinkByShortCode
    rw [hlookup]
    simp only
    rw [hcount]
  · intro st stored hfind hnone
    have hl : Store.env.linkRepo.GetLinkByShortCode shortCode st = (.ok stored, st) := by
      show (match st.links.find? (fun l => l.ShortCode = shortCode) with
        | some link => (Except.ok link, st)
        | none => (Except.error GoError.recordNotFound, st)) = _
      rw [hfind]
    have hc : Store.env.linkRepo.CountClicksByLinkID stored.ID st = (.ok 0, st) := by
      show (Except.ok ((st.clicks.countP (fun c => c.LinkID = stored.ID) : Nat) : Int), st) = _
      have : st.clicks.countP (fun c => c.LinkID = stored.ID) = 0 := by
        rw [List.countP_eq_zero]
        intro c hc
        simpa using hnone c hc
      rw [this]
      rfl
    unfold GetLinkStats GetLinkByShortCode
    rw [hl]
    simp only
    rw [hc]

theorem GetLinkStats_ok_witness :
    GetLinkStats Store.env "ABC123" sampleStore =
      ((some { ID := 8, ShortCode := "ABC123", LongURL := "https://example.com" }, 0, none),
        sampleStore) :=
  (GetLinkStats_ok Store.env "ABC123" sampleStore sampleStore sampleStore
    { ID := 8, ShortCode := "ABC123", LongURL := "https://example.com" } 0 rfl rfl).1

/-- C9: for every short code for which the repository lookup fails with
`err`, `GetLinkStats(code)` returns no link, the count 0 and exactly the error
that `GetLinkByShortCode(code)` returns, and the environment is the one the
lookup left (the click-count accessor is not called: in the scripted
environment the lookup is the only call recorded); that error is
`link with short code 'code' not found: err` when
`errors.Is(err, gorm.ErrRecordNotFound)` and
`error retrieving link by short code 'code': err` otherwise, and it is a
record-not-found error exactly when `err` is. -/
theorem GetLinkStats_lookup_error {σ : Type} (env : Env σ) (shortCode : String) (s s1 : σ)
    (err : GoError) (hlookup : env.linkRepo.GetLinkByShortCode shortCode s = (.error err, s1)) :
    GetLinkStats env shortCode s = ((none, 0, (GetLinkByShortCode env shortCode s).1.2), s1) ∧
    GetLinkByShortCode env shortCode s =
      ((none, some (.wrap
        (if errorsIs err .recordNotFound
          then "link with short code \x27" ++ shortCode ++ "\x27 not found"
          else "error retrieving link by short code \x27" ++ shortCode ++ "\x27") err)), s1) ∧
    (∀ e, (GetLinkStats env shortCode s).1.2.2 = some e →
      errorsIs e .recordNotFound = errorsIs err .recordNotFound) ∧
    ∀ (w : World) (werr : GoError), w.lookupOut 0 = .error werr →
      (GetLinkStats World.env shortCode w).2.trace =
        w.trace ++ [.getLinkByShortCode shortCode] := by
  have hsvc := GetLinkByShortCode_error env shortCode s s1 err hlookup
  have hstats := GetLinkStats_error env shortCode s s1 err hlookup
  refine ⟨hstats, hsvc, ?_, ?_⟩
  · intro e he
    rw [hstats, hsvc] at he
    simp only [Option.some.injEq] at he
    rw [← he, errorsIs_wrap]
  · intro w werr hw
    have hl : World.env.linkRepo.GetLinkByShortCode shortCode w =
        (.error werr,
          { w with lookupOut := fun n => w.lookupOut (n + 1),
                   trace := w.trace ++ [.getLinkByShortCode shortCode] }) := by
      rw [← hw]
      rfl
    rw [GetLinkStats_error World.env shortCode w _ werr hl]

theorem GetLinkStats_lookup_error_witness :
    GetLinkStats Store.env "doesnotexist" sampleStore =
      ((none, 0, some (.wrap "link with short code \x27doesnotexist\x27 not found"
        .recordNotFound)), sampleStore) := by
  have h := GetLinkStats_lookup_error Store.env "doesnotexist" sampleStore sampleStore
    .recordNotFound rfl
  rw [h.1, h.2.1]
  rfl

/-! ## Click service -/

/-- C10: over the in-memory store, for every state and every click `c`:
`RecordClick(c)` returns no error, after it `GetClicksCountByLinkID(c.link_id)`
returns the count it returned before plus one and no error, and the count of
every other link id is unchanged; `GetClicksCountByLinkID` of a link without
clicks returns 0 and no error.  Over any click repository: when the
repository create fails with `err`, `RecordClick` returns
`failed to record click: err`, and when the repository count fails with `err`,
`GetClicksCountByLinkID` returns the count 0 and
`failed to count clicks for linkID <id>: err`. -/
theorem ClickService_counts (st : Store) (c : Click) :
    (RecordClick Store.clickRepo c st).1 = none ∧
    (GetClicksCountByLinkID Store.clickRepo c.LinkID (RecordClick Store.clickRepo c st).2).1 =
      ((GetClicksCountByLinkID Store.clickRepo c.LinkID st).1.1 + 1, none) ∧
    (∀ other, other ≠ c.LinkID →
      (GetClicksCountByLinkID Store.clickRepo other (RecordClick Store.clickRepo c st).2).1 =
        (GetClicksCountByLinkID Store.clickRepo other st).1) ∧
    (∀ linkID, (∀ x ∈ st.clicks, x.LinkID ≠ linkID) →
      GetClicksCountByLinkID Store.clickRepo linkID st = ((0, none), st)) ∧
    (∀ (σ : Type) (repo : ClickRepository σ) (click : Click) (s s1 : σ) (err : GoError),
      repo.CreateClick click s = (some err, s1) →
      RecordClick repo click s = (some (.wrap "failed to record click" err), s1)) ∧
    (∀ (σ : Type) (repo : ClickRepository σ) (linkID : Nat) (s s1 : σ) (err : GoError),
      repo.CountClicksByLinkID linkID s = (.error err, s1) →
      GetClicksCountByLinkID repo linkID s =
        ((0, some (.wrap ("failed to count clicks for linkID " ++ toString linkID) err)), s1)) := by
  have hcount : ∀ (linkID : Nat) (t : Store),
      GetClicksCountByLinkID Store.clickRepo linkID t =
        ((((t.clicks.countP (fun x => x.LinkID = linkID) : Nat) : Int), none), t) :=
    fun _ _ => rfl
  have hrec : RecordClick Store.clickRepo c st =
      (none, { st with clicks := st.clicks ++ [{ c with ID := st.clicks.length + 1 }] }) := rfl
  refine ⟨rfl, ?_, ?_, ?_, ?_, ?_⟩
  · rw [hrec, hcount, hcount]
    simp [List.countP_append]
  · intro other hne
    rw [hrec, hcount, hcount]
    simp [List.countP_append, List.countP_cons, Ne.symm hne]
  · intro linkID hnone
    rw [hcount]
    have : st.clicks.countP (fun x => x.LinkID = linkID) = 0 := by
      rw [List.countP_eq_zero]
      intro x hx
      simpa using hnone x hx
    rw [this]
    rfl
  · intro σ repo click s s1 err h
    unfold RecordClick
    rw [h]
  · intro σ repo linkID s s1 err h
    unfold GetClicksCountByLinkID
    rw [h]

theorem ClickService_counts_witness :
    (GetClicksCountByLinkID Store.clickRepo 7 sampleStore).1 = (2, none) ∧
    (GetClicksCountByLinkID Store.clickRepo 7
      (RecordClick Store.clickRepo { ID := 0, LinkID := 7, Metadata := "c" } sampleStore).2).1 =
      (3, none) ∧
    GetClicksCountByLinkID Store.clickRepo 8 sampleStore = ((0, none), sampleStore) := by
  have h := ClickService_counts sampleStore { ID := 0, LinkID := 7, Metadata := "c" }
  exact ⟨rfl, h.2.1, h.2.2.2.1 8 (by decide)⟩

end UrlShortener
